import Mathlib

/-!
Verification of the configuration-loading module in `src/config/config.go`
(package `config` of qingcloud-sdk-go).

The Go source under `src/` is the authority for the control flow of the
operations `New`, `NewWithEndpoint`, `NewDefault`, `LoadDefaultConfig`,
`LoadUserConfig`, `LoadConfigFromFilepath` and `LoadConfigFromContent`.
Parts of the program that are referenced by `config.go` but whose code is
not under `src/` — the YAML decoder `utils.YAMLDecode`, the embedded
document `DefaultConfigFileContent`, the URL parser `net/url.Parse`,
`strconv.Atoi`, `strings.Split`/`Contains`/`Replace`, and the filesystem
(`os.Stat`, `ioutil.ReadFile`, `GetUserConfigFilePath`,
`InstallDefaultUserConfig`) — are modelled from the spec; each such
definition carries a doc comment saying so.  The embedded default document
is kept as an explicit `String` parameter `dc` of every operation, so
theorems quantify over it.  Logging (`logger.SetLevel`, `logger.Warn`,
`logger.Error`) is a process-global side effect the spec places out of
scope; it is not modelled.  Machine integers are modelled as `Int`
(no overflow occurs at the small values involved).
-/

set_option autoImplicit false

/-! ## Character-list helpers (models of Go standard-library string ops) -/

/-- Whitespace recognised when trimming a YAML line fragment. -/
def isWsChar (c : Char) : Bool := c = ' ' || c = '\t' || c = '\r'

/-- Trim whitespace from both ends of a character list. -/
def trimChars (l : List Char) : List Char :=
  ((l.dropWhile isWsChar).reverse.dropWhile isWsChar).reverse

/-- Modelled from the spec: Go `strings.Split(s, sep)` for a one-character
separator (`strings` is not under `src/`).  Splitting a list on `sep`
yields one part per separator-free run; `n` separators give `n + 1` parts. -/
def splitOnChar (sep : Char) : List Char → List (List Char)
  | [] => [[]]
  | c :: rest =>
    if c = sep then [] :: splitOnChar sep rest
    else
      match splitOnChar sep rest with
      | [] => [[c]]
      | h :: t => (c :: h) :: t

/-- Split a list at the first occurrence of `sep`: `some (before, after)`,
or `none` when `sep` does not occur. -/
def splitFirst (sep : Char) : List Char → Option (List Char × List Char)
  | [] => none
  | c :: rest =>
    if c = sep then some ([], rest)
    else (splitFirst sep rest).map (fun p => (c :: p.1, p.2))

/-- Split a list at the first occurrence of the pattern `pat`:
`some (before, after)`, or `none` when `pat` does not occur. -/
def splitSubstr (pat : List Char) : List Char → Option (List Char × List Char)
  | [] => none
  | c :: rest =>
    if pat.isPrefixOf (c :: rest) then some ([], (c :: rest).drop pat.length)
    else (splitSubstr pat rest).map (fun p => (c :: p.1, p.2))

/-- Value of a digit list read in base 10. -/
def digitsToNat (l : List Char) : Nat :=
  l.foldl (fun n c => n * 10 + (c.toNat - '0'.toNat)) 0

/-- Modelled from the spec: Go `strconv.Atoi` (`strconv` is not under
`src/`): an optional sign followed by a non-empty run of decimal digits;
anything else is an error (`none`).  Overflow is not modelled. -/
def atoi (s : String) : Option Int :=
  match s.data with
  | [] => none
  | c :: ds =>
    if c = '-' then
      if !ds.isEmpty && ds.all Char.isDigit then some (-(digitsToNat ds : Int)) else none
    else if c = '+' then
      if !ds.isEmpty && ds.all Char.isDigit then some ((digitsToNat ds : Int)) else none
    else if (c :: ds).all Char.isDigit then some ((digitsToNat (c :: ds) : Int)) else none

/-! ## URL parsing -/

/-- The components of a parsed URL that `NewWithEndpoint` consumes:
`Host` includes the port segment, exactly as Go's `url.URL.Host` does. -/
@[ext] structure URL where
  Scheme : String
  Host : String
  Path : String
  deriving DecidableEq

/-- The port check applied to the host segment: either no colon at all, or
exactly one colon followed by a non-empty run of digits. -/
def portOk (hp : List Char) : Bool :=
  if hp.contains ':' then
    match splitOnChar ':' hp with
    | [_, p] => !p.isEmpty && p.all Char.isDigit
    | _ => false
  else true

/-- Modelled from the spec: Go `url.Parse` (`net/url` is not under `src/`),
restricted to the spec's endpoint form `scheme://host[:port][/path]`: the
scheme is a non-empty run of letters, the host may carry one `:port`
segment whose port is a non-empty run of digits, and everything from the
first `/` after the authority is the path.  A string without `://` has no
authority: it parses with an empty host (and scheme), as Go treats such
strings as opaque or path-only URLs. -/
def parseURL (s : String) : Except Unit URL :=
  match splitSubstr ("://".data) s.data with
  | none => .ok { Scheme := "", Host := "", Path := s }
  | some (sch, rest) =>
    if sch.isEmpty || !sch.all Char.isAlpha then .error ()
    else
      match splitFirst '/' rest with
      | none =>
        if portOk rest then .ok { Scheme := ⟨sch⟩, Host := ⟨rest⟩, Path := "" }
        else .error ()
      | some (hp, after) =>
        if portOk hp then .ok { Scheme := ⟨sch⟩, Host := ⟨hp⟩, Path := ⟨'/' :: after⟩ }
        else .error ()

/-- The host component (host without the port segment) of a parsed URL,
split the way `NewWithEndpoint` splits it. -/
def URL.hostPart (u : URL) : String := ⟨(splitOnChar ':' u.Host.data).headD []⟩

/-- The port segment (text after the colon) of a parsed URL's host. -/
def URL.portPart (u : URL) : String := ⟨(splitOnChar ':' u.Host.data).getD 1 []⟩

/-! ## The configuration record -/

/-- The client attached to a configuration: either Go's zero-value
`&http.Client{}` (default transport, no dial-timeout wrapper), or a client
whose transport dials with the given timeout in seconds
(`time.Duration(ConnectionTimeout) * time.Second`). -/
inductive HTTPClient where
  | default
  | withDialTimeout (seconds : Int)
  deriving DecidableEq

/-- The error taxonomy of the module.  `atoiError` is the `strconv.Atoi`
failure branch of `NewWithEndpoint` (unreachable for URLs accepted by
`parseURL`, kept for faithfulness to the source). -/
inductive ConfigError where
  | urlParseError
  | missingPortError
  | decodeError
  | fileIOError
  | atoiError
  deriving DecidableEq

/-- The `Config` struct of `src/config/config.go`, lines 35–51.
`Connection` is `none` for Go's `nil` pointer. -/
@[ext] structure Config where
  AccessKeyID : String
  SecretAccessKey : String
  Host : String
  Port : Int
  Protocol : String
  URI : String
  ConnectionRetries : Int
  ConnectionTimeout : Int
  LogLevel : String
  Zone : String
  Connection : Option HTTPClient
  deriving DecidableEq

/-- Go's zero value `Config{}`: empty strings, zero ints, nil client. -/
def freshConfig : Config :=
  { AccessKeyID := "", SecretAccessKey := "", Host := "", Port := 0,
    Protocol := "", URI := "", ConnectionRetries := 0, ConnectionTimeout := 0,
    LogLevel := "", Zone := "", Connection := none }

/-! ## YAML decoding, modelled from the spec -/

/-- One field assignment produced by decoding a document: each recognised
key of the input format maps to the struct field its YAML tag names. -/
inductive Assignment where
  | AccessKeyID (v : String)
  | SecretAccessKey (v : String)
  | Host (v : String)
  | Port (v : Int)
  | Protocol (v : String)
  | URI (v : String)
  | ConnectionRetries (v : Int)
  | ConnectionTimeout (v : Int)
  | LogLevel (v : String)
  | Zone (v : String)
  deriving DecidableEq

/-- Modelled from the spec: the key→assignment table of the input document
format (the recognised keys of §6).  Unrecognised keys are ignored
(`some none`); a recognised integer key with a non-numeric value is a
decode error (`none`). -/
def keyAssign (key val : List Char) : Option (Option Assignment) :=
  if key = "qy_access_key_id".data then some (some (.AccessKeyID ⟨val⟩))
  else if key = "qy_secret_access_key".data then some (some (.SecretAccessKey ⟨val⟩))
  else if key = "host".data then some (some (.Host ⟨val⟩))
  else if key = "port".data then (atoi ⟨val⟩).map (fun n => some (.Port n))
  else if key = "protocol".data then some (some (.Protocol ⟨val⟩))
  else if key = "uri".data then some (some (.URI ⟨val⟩))
  else if key = "connection_retries".data then (atoi ⟨val⟩).map (fun n => some (.ConnectionRetries n))
  else if key = "connection_timeout".data then (atoi ⟨val⟩).map (fun n => some (.ConnectionTimeout n))
  else if key = "log_level".data then some (some (.LogLevel ⟨val⟩))
  else if key = "zone".data then some (some (.Zone ⟨val⟩))
  else some none

/-- Modelled from the spec: one line of the flat key→value document.
Blank lines and `#` comments carry no assignment; a non-blank line must be
`key: value` (a line without a colon is malformed); keys and values are
trimmed. -/
def parseLine (l : List Char) : Option (Option Assignment) :=
  let t := trimChars l
  if t.isEmpty then some none
  else if t.headD ' ' = '#' then some none
  else
    match splitFirst ':' t with
    | none => none
    | some (k, v) => keyAssign (trimChars k) (trimChars v)

/-- Parse a list of lines into the assignments they carry; any malformed
line makes the whole document malformed. -/
def parseLines : List (List Char) → Option (List Assignment)
  | [] => some []
  | l :: rest =>
    match parseLine l, parseLines rest with
    | some oa, some rs => some (oa.elim rs (· :: rs))
    | _, _ => none

/-- Modelled from the spec: the parse phase of `utils.YAMLDecode` (not
under `src/`): the supplied bytes either decode to a list of field
assignments or are rejected as a whole (`none` = `DecodeError`).
Whether the document is malformed depends only on the bytes, never on the
record being decoded onto. -/
def parseDoc (s : String) : Option (List Assignment) :=
  parseLines (splitOnChar '\n' s.data)

/-- Apply one decoded assignment to the record (the write phase of
`utils.YAMLDecode`): the named field is overwritten, every other field is
retained. -/
def applyAssign (c : Config) : Assignment → Config
  | .AccessKeyID v => { c with AccessKeyID := v }
  | .SecretAccessKey v => { c with SecretAccessKey := v }
  | .Host v => { c with Host := v }
  | .Port v => { c with Port := v }
  | .Protocol v => { c with Protocol := v }
  | .URI v => { c with URI := v }
  | .ConnectionRetries v => { c with ConnectionRetries := v }
  | .ConnectionTimeout v => { c with ConnectionTimeout := v }
  | .LogLevel v => { c with LogLevel := v }
  | .Zone v => { c with Zone := v }

/-- Apply a list of decoded assignments in order (later assignments win). -/
def applyAssigns (c : Config) (as : List Assignment) : Config :=
  as.foldl applyAssign c

/-! ## The operations of `config.go` -/

/-- `Config.LoadDefaultConfig` (`config.go` lines 120–130): decode the
embedded default document `dc` onto the record.  On a malformed document
the record is unchanged and `DecodeError` is reported; the `logger`
side effects are out of scope. -/
def Config.LoadDefaultConfig (c : Config) (dc : String) : Config × Option ConfigError :=
  match parseDoc dc with
  | none => (c, some ConfigError.decodeError)
  | some as => (applyAssigns c as, none)

/-- Build the client of `NewDefault`/`LoadConfigFromContent`: a transport
whose dialer enforces `time.Duration(c.ConnectionTimeout) * time.Second`. -/
def setClient (c : Config) : Config :=
  { c with Connection := some (HTTPClient.withDialTimeout c.ConnectionTimeout) }

/-- `Config.LoadConfigFromContent` (`config.go` lines 162–184): re-apply
the built-in defaults first — the error of `c.LoadDefaultConfig()` is
discarded, exactly as in the source — then decode the supplied bytes over
the record; on success rebuild the client with a dial-timeout wrapper
computed from the decoded timeout field. -/
def Config.LoadConfigFromContent (c : Config) (dc content : String) :
    Config × Option ConfigError :=
  let c1 := (c.LoadDefaultConfig dc).1
  match parseDoc content with
  | none => (c1, some ConfigError.decodeError)
  | some as => (setClient (applyAssigns c1 as), none)

/-- `NewDefault` (`config.go` lines 98–116): decode the default document
into a zero-value record, then attach a client whose dialer enforces the
decoded timeout. -/
def NewDefault (dc : String) : Except ConfigError Config :=
  let r := freshConfig.LoadDefaultConfig dc
  match r.2 with
  | some e => .error e
  | none => .ok (setClient r.1)

/-- `New` (`config.go` lines 54–66): `NewDefault`, then overwrite the two
credential fields and replace the client with a plain `&http.Client{}`. -/
def New (dc ak sk : String) : Except ConfigError Config :=
  match NewDefault dc with
  | .error e => .error e
  | .ok config =>
    .ok { config with
            AccessKeyID := ak, SecretAccessKey := sk,
            Connection := some HTTPClient.default }

/-- `NewWithEndpoint` (`config.go` lines 69–95): parse the endpoint, fail
with `missingPortError` when the host carries no colon, then build the
default config, split `host:port` on the colon, convert the port with
`Atoi`, and set host/port/protocol/URI from the parsed URL with a plain
`&http.Client{}`. -/
def NewWithEndpoint (dc ak sk endpoint : String) : Except ConfigError Config :=
  match parseURL endpoint with
  | .error _ => .error ConfigError.urlParseError
  | .ok qcUrl =>
    if !(qcUrl.Host.data.contains ':') then .error ConfigError.missingPortError
    else
      match NewDefault dc with
      | .error e => .error e
      | .ok config =>
        let hostPort := splitOnChar ':' qcUrl.Host.data
        match atoi ⟨hostPort.getD 1 []⟩ with
        | none => .error ConfigError.atoiError
        | some port =>
          .ok { config with
                  AccessKeyID := ak, SecretAccessKey := sk,
                  Host := ⟨hostPort.headD []⟩, Port := port,
                  Protocol := qcUrl.Scheme, URI := qcUrl.Path,
                  Connection := some HTTPClient.default }

/-! ## Filesystem model -/

/-- Modelled from the spec: the filesystem visible to the module, a finite
map from paths to file contents. -/
def Fs : Type := List (String × String)

/-- `ioutil.ReadFile`: the content at a path, `none` when unreadable. -/
def Fs.read (fs : Fs) (p : String) : Option String := List.lookup p fs

/-- `os.Stat` reduced to what `LoadUserConfig` uses: does the path exist. -/
def Fs.stat (fs : Fs) (p : String) : Bool := (fs.read p).isSome

/-- Modelled from the spec: `GetUserConfigFilePath` (not under `src/`), the
fixed per-user location `~/.qingcloud/config.yaml` with the home directory
resolved. -/
def getUserConfigFilePath (home : String) : String :=
  home ++ "/.qingcloud/config.yaml"

/-- The `~/` expansion of `LoadConfigFromFilepath` (`config.go` lines
147–149): replace a leading `~/` by the home directory (`getHome` is not
under `src/`; the home directory is the explicit parameter `home`). -/
def expandPath (home filepath : String) : String :=
  if ("~/".data).isPrefixOf filepath.data then ⟨home.data ++ ('/' :: filepath.data.drop 2)⟩
  else filepath

/-- `Config.LoadConfigFromFilepath` (`config.go` lines 146–158): expand a
leading `~/`, read the file — `fileIOError` when unreadable — and delegate
to `LoadConfigFromContent`. -/
def Config.LoadConfigFromFilepath (c : Config) (dc home : String) (fs : Fs)
    (filepath : String) : Config × Option ConfigError :=
  match fs.read (expandPath home filepath) with
  | none => (c, some ConfigError.fileIOError)
  | some content => c.LoadConfigFromContent dc content

/-- `Config.LoadUserConfig` (`config.go` lines 134–142): stat the user
config path; when absent, run `InstallDefaultUserConfig()` — `install` is
the model of that missing function, and both its filesystem effect and its
reported outcome are taken from it, the outcome being discarded exactly as
the source discards it — then delegate to `LoadConfigFromFilepath` on the
user path.  Returns the filesystem after the optional install alongside
the record and error. -/
def Config.LoadUserConfig (c : Config) (dc home : String)
    (install : Fs → Fs × Option ConfigError) (fs : Fs) :
    Fs × (Config × Option ConfigError) :=
  let path := getUserConfigFilePath home
  let fs1 := if fs.stat path then fs else (install fs).1
  (fs1, c.LoadConfigFromFilepath dc home fs1 path)

/-! ## The net effect of a decoded document: a patch on the scalar fields -/

/-- The net effect of a list of assignments: for each scalar field, the
last value the list assigns to it, if any. -/
@[ext] structure Patch where
  AccessKeyID : Option String := none
  SecretAccessKey : Option String := none
  Host : Option String := none
  Port : Option Int := none
  Protocol : Option String := none
  URI : Option String := none
  ConnectionRetries : Option Int := none
  ConnectionTimeout : Option Int := none
  LogLevel : Option String := none
  Zone : Option String := none
  deriving DecidableEq

/-- The patch that assigns nothing. -/
def emptyPatch : Patch := {}

/-- Record one assignment into a patch (later assignments win). -/
def patchAdd (p : Patch) : Assignment → Patch
  | .AccessKeyID v => { p with AccessKeyID := some v }
  | .SecretAccessKey v => { p with SecretAccessKey := some v }
  | .Host v => { p with Host := some v }
  | .Port v => { p with Port := some v }
  | .Protocol v => { p with Protocol := some v }
  | .URI v => { p with URI := some v }
  | .ConnectionRetries v => { p with ConnectionRetries := some v }
  | .ConnectionTimeout v => { p with ConnectionTimeout := some v }
  | .LogLevel v => { p with LogLevel := some v }
  | .Zone v => { p with Zone := some v }

/-- The patch of a whole assignment list. -/
def patchOf (as : List Assignment) : Patch := as.foldl patchAdd emptyPatch

/-- Apply a patch to a record: patched fields are overwritten, the rest —
including the client — are retained. -/
def applyPatch (c : Config) (p : Patch) : Config :=
  { AccessKeyID := p.AccessKeyID.getD c.AccessKeyID,
    SecretAccessKey := p.SecretAccessKey.getD c.SecretAccessKey,
    Host := p.Host.getD c.Host,
    Port := p.Port.getD c.Port,
    Protocol := p.Protocol.getD c.Protocol,
    URI := p.URI.getD c.URI,
    ConnectionRetries := p.ConnectionRetries.getD c.ConnectionRetries,
    ConnectionTimeout := p.ConnectionTimeout.getD c.ConnectionTimeout,
    LogLevel := p.LogLevel.getD c.LogLevel,
    Zone := p.Zone.getD c.Zone,
    Connection := c.Connection }

/-- Sequential composition of patches: the second one wins. -/
def oseq {α : Type} (a b : Option α) : Option α :=
  match b with
  | some v => some v
  | none => a

/-- Compose two patches, the second one winning per field. -/
def patchSeq (p q : Patch) : Patch :=
  { AccessKeyID := oseq p.AccessKeyID q.AccessKeyID,
    SecretAccessKey := oseq p.SecretAccessKey q.SecretAccessKey,
    Host := oseq p.Host q.Host,
    Port := oseq p.Port q.Port,
    Protocol := oseq p.Protocol q.Protocol,
    URI := oseq p.URI q.URI,
    ConnectionRetries := oseq p.ConnectionRetries q.ConnectionRetries,
    ConnectionTimeout := oseq p.ConnectionTimeout q.ConnectionTimeout,
    LogLevel := oseq p.LogLevel q.LogLevel,
    Zone := oseq p.Zone q.Zone }

theorem getD_oseq {α : Type} (a b : Option α) (x : α) :
    (oseq a b).getD x = b.getD (a.getD x) := by
  cases b <;> rfl

theorem oseq_self {α : Type} (a : Option α) : oseq a a = a := by
  cases a <;> rfl

theorem getD_getD_self {α : Type} (a : Option α) (x : α) :
    a.getD (a.getD x) = a.getD x := by
  cases a <;> rfl

theorem applyAssign_applyPatch (c : Config) (p : Patch) (a : Assignment) :
    applyAssign (applyPatch c p) a = applyPatch c (patchAdd p a) := by
  cases a <;> rfl

theorem foldl_applyAssign_applyPatch (as : List Assignment) :
    ∀ (c : Config) (p : Patch),
      List.foldl applyAssign (applyPatch c p) as
        = applyPatch c (List.foldl patchAdd p as) := by
  induction as with
  | nil => intro c p; rfl
  | cons a rest ih =>
    intro c p
    simp only [List.foldl_cons, applyAssign_applyPatch, ih]

theorem applyPatch_empty (c : Config) : applyPatch c emptyPatch = c := rfl

theorem applyAssigns_eq_applyPatch (c : Config) (as : List Assignment) :
    applyAssigns c as = applyPatch c (patchOf as) := by
  have h := foldl_applyAssign_applyPatch as c emptyPatch
  rw [applyPatch_empty] at h
  exact h

theorem applyPatch_applyPatch (c : Config) (p q : Patch) :
    applyPatch (applyPatch c p) q = applyPatch c (patchSeq p q) := by
  ext <;> simp [applyPatch, patchSeq, getD_oseq]

theorem patchSeq_self (p : Patch) : patchSeq p p = p := by
  ext1 <;> simp [patchSeq, oseq_self]

/-- The patch of a document string: what decoding it assigns (nothing when
it is malformed — the decode is atomic). -/
def docPatch (dc : String) : Patch :=
  match parseDoc dc with
  | none => emptyPatch
  | some ds => patchOf ds

/-- Normal form of `LoadConfigFromContent`: the defaults patch is applied
first (its error discarded), then either the content is malformed — the
record keeps just the defaults patch and `decodeError` is reported — or
the content patch is applied and the client rebuilt. -/
theorem LCFC_normal (c : Config) (dc b : String) :
    c.LoadConfigFromContent dc b =
      match parseDoc b with
      | none => (applyPatch c (docPatch dc), some ConfigError.decodeError)
      | some bs =>
        (setClient (applyPatch (applyPatch c (docPatch dc)) (patchOf bs)), none) := by
  unfold Config.LoadConfigFromContent Config.LoadDefaultConfig docPatch
  cases hD : parseDoc dc <;> cases hB : parseDoc b <;>
    simp [applyAssigns_eq_applyPatch, applyPatch_empty]

theorem setClient_applyPatch_setClient (c : Config) (s : Patch) :
    setClient (applyPatch (setClient (applyPatch c s)) s) = setClient (applyPatch c s) := by
  ext <;> simp [setClient, applyPatch, getD_getD_self]

/-- C2: `LoadFromContent` is idempotent: re-applying the same bytes to the
record it produced yields exactly the same record and the same outcome. -/
theorem LoadConfigFromContent_idempotent (dc b : String) (c : Config) :
    Config.LoadConfigFromContent ((Config.LoadConfigFromContent c dc b).1) dc b
      = Config.LoadConfigFromContent c dc b := by
  cases hB : parseDoc b with
  | none =>
    simp only [LCFC_normal, hB, applyPatch_applyPatch, patchSeq_self]
  | some bs =>
    simp only [LCFC_normal, hB, applyPatch_applyPatch, patchSeq_self,
      setClient_applyPatch_setClient]

/-! ## C5: what a failing `LoadConfigFromContent` does to the record -/

/-- A starting record holding previously valid values. -/
def priorConfig : Config := { freshConfig with Host := "keep.example", Port := 7777 }

/-- C5 as stated is false: with malformed bytes, `LoadConfigFromContent`
reports the failure, but the caller's previously valid field values have
already been overwritten — the record was reset with the built-in defaults
before the decode of the supplied bytes failed. -/
theorem LoadConfigFromContent_failure_counterexample :
    (priorConfig.LoadConfigFromContent "host: qingcloud.com" "not a yaml line").2
        = some ConfigError.decodeError
      ∧ (priorConfig.LoadConfigFromContent "host: qingcloud.com" "not a yaml line").1.Host
        ≠ priorConfig.Host := by
  decide

/-- C5 amended: on success the record is fully populated; on malformed
bytes the decode of the supplied bytes is rejected as a whole (it
contributes nothing) and the failure is reported, but the record is left
reset with the built-in defaults applied over the prior values, not with
the caller's previous values. -/
theorem LoadConfigFromContent_failure_amended (dc b : String) (c : Config)
    (hb : parseDoc b = none) :
    c.LoadConfigFromContent dc b = ((c.LoadDefaultConfig dc).1, some ConfigError.decodeError) := by
  unfold Config.LoadConfigFromContent
  rw [hb]

theorem LoadConfigFromContent_failure_amended_witness :
    parseDoc "not a yaml line" = none
      ∧ priorConfig.LoadConfigFromContent "host: qingcloud.com" "not a yaml line"
          = ((priorConfig.LoadDefaultConfig "host: qingcloud.com").1,
             some ConfigError.decodeError) :=
  ⟨rfl, LoadConfigFromContent_failure_amended "host: qingcloud.com" "not a yaml line"
    priorConfig rfl⟩

/-! ## C6: layered overwrite over the built-in defaults -/

/-- The default document of the C6 example: defaults
`host qingcloud.com, port 443, protocol https, connection_timeout 15`. -/
def dcExample : String :=
  "host: qingcloud.com\nport: 443\nprotocol: https\nconnection_timeout: 15"

/-- The supplied bytes of the C6 example. -/
def bytesExample : String := "host: example.com\nport: 4000\nprotocol: https"

/-- C6: decoding the supplied bytes is a layered overwrite over the
built-in defaults: `host`, `port` and `protocol` are overwritten by the
bytes, `connection_timeout` keeps its defaulted value 15, and every field
named by neither document retains the starting record's value. -/
theorem LoadConfigFromContent_layered_example (c : Config) :
    c.LoadConfigFromContent dcExample bytesExample =
      ({ c with
           Host := "example.com", Port := 4000, Protocol := "https",
           ConnectionTimeout := 15,
           Connection := some (HTTPClient.withDialTimeout 15) }, none) := rfl

/-! ## C9: the defaults-decode error inside `LoadConfigFromContent` -/

/-- C9: `LoadConfigFromContent` discards the error of re-applying the
built-in defaults: when the default document is malformed it decodes the
supplied bytes directly over the record and succeeds whenever they decode. -/
theorem LoadConfigFromContent_discards_default_error (dc b : String) (c : Config)
    (hdc : parseDoc dc = none) (bs : List Assignment) (hb : parseDoc b = some bs) :
    c.LoadConfigFromContent dc b = (setClient (applyAssigns c bs), none) := by
  unfold Config.LoadConfigFromContent Config.LoadDefaultConfig
  rw [hdc, hb]

theorem LoadConfigFromContent_discards_default_error_witness :
    parseDoc "no colon here" = none
      ∧ parseDoc "port: 9" = some [Assignment.Port 9]
      ∧ freshConfig.LoadConfigFromContent "no colon here" "port: 9"
          = (setClient (applyAssigns freshConfig [Assignment.Port 9]), none) :=
  ⟨rfl, rfl, LoadConfigFromContent_discards_default_error "no colon here" "port: 9"
    freshConfig rfl [Assignment.Port 9] rfl⟩

/-! ## C1 and C4: endpoint parsing in `NewWithEndpoint` -/

/-- Any URL accepted by `parseURL` has a validated host segment. -/
theorem parseURL_portOk (s : String) (u : URL) (h : parseURL s = .ok u) :
    portOk u.Host.data = true := by
  unfold parseURL at h
  split at h
  · simp only [Except.ok.injEq] at h
    subst h
    rfl
  · split at h
    · simp at h
    · split at h <;> split at h <;>
        first
          | (simp only [Except.ok.injEq] at h; subst h; simp_all)
          | simp at h

/-- `Atoi` succeeds on a non-empty run of digits. -/
theorem atoi_digits (p : List Char) (h1 : p.isEmpty = false)
    (h2 : p.all Char.isDigit = true) :
    atoi ⟨p⟩ = some ((digitsToNat p : Nat) : Int) := by
  cases p with
  | nil => simp at h1
  | cons c cs =>
    have hc : c.isDigit = true := by
      simp only [List.all_cons, Bool.and_eq_true] at h2
      exact h2.1
    have hminus : ¬(c = '-') := by
      intro e
      rw [e] at hc
      simp [Char.isDigit] at hc
    have hplus : ¬(c = '+') := by
      intro e
      rw [e] at hc
      simp [Char.isDigit] at hc
    unfold atoi
    simp only [if_neg hminus, if_neg hplus, h2, if_pos]

/-- C4: an endpoint that parses to a URL whose host segment carries no
port (no colon) makes `NewWithEndpoint` fail with `missingPortError`; no
configuration record is returned at all. -/
theorem NewWithEndpoint_missingPort (dc ak sk endpoint : String) (u : URL)
    (hu : parseURL endpoint = .ok u) (hc : u.Host.data.contains ':' = false) :
    NewWithEndpoint dc ak sk endpoint = .error ConfigError.missingPortError := by
  unfold NewWithEndpoint
  rw [hu]
  simp only [hc, Bool.not_false, eq_self_iff_true, if_true]

theorem NewWithEndpoint_missingPort_witness :
    parseURL "http://example.com/path"
        = .ok { Scheme := "http", Host := "example.com", Path := "/path" }
      ∧ NewWithEndpoint "port: 1" "ak" "sk" "http://example.com/path"
          = .error ConfigError.missingPortError :=
  ⟨rfl, NewWithEndpoint_missingPort "port: 1" "ak" "sk" "http://example.com/path"
    { Scheme := "http", Host := "example.com", Path := "/path" } rfl rfl⟩

/-- C1: an endpoint that parses to a URL whose host segment carries an
explicit port makes `NewWithEndpoint` succeed (given a well-formed default
document), and the record's host, port, protocol and URI equal the host,
port, scheme and path components of the parsed URL. -/
theorem NewWithEndpoint_ok_fields (dc ak sk endpoint : String) (u : URL)
    (hu : parseURL endpoint = .ok u) (hc : u.Host.data.contains ':' = true)
    (ds : List Assignment) (hdc : parseDoc dc = some ds) :
    ∃ cfg, NewWithEndpoint dc ak sk endpoint = .ok cfg
      ∧ cfg.Host = u.hostPart
      ∧ atoi u.portPart = some cfg.Port
      ∧ cfg.Protocol = u.Scheme
      ∧ cfg.URI = u.Path := by
  have hpo := parseURL_portOk endpoint u hu
  unfold portOk at hpo
  rw [hc] at hpo
  simp only [if_pos] at hpo
  cases hsp : splitOnChar ':' u.Host.data with
  | nil => rw [hsp] at hpo; simp at hpo
  | cons a t =>
    cases t with
    | nil => rw [hsp] at hpo; simp at hpo
    | cons p t2 =>
      cases t2 with
      | cons b t3 => rw [hsp] at hpo; simp at hpo
      | nil =>
        rw [hsp] at hpo
        simp only [Bool.and_eq_true, Bool.not_eq_true'] at hpo
        have hat := atoi_digits p hpo.1 hpo.2
        unfold NewWithEndpoint NewDefault Config.LoadDefaultConfig
        rw [hu, hdc]
        simp only [hc, Bool.not_true, Bool.false_eq_true, if_false, hsp]
        unfold URL.hostPart URL.portPart
        rw [hsp]
        have hat2 : atoi ⟨([a, p] : List (List Char)).getD 1 []⟩
            = some ((digitsToNat p : Nat) : Int) := hat
        rw [hat2]
        exact ⟨_, rfl, rfl, rfl, rfl, rfl⟩

/-! ## Client-presence helpers -/

theorem applyAssigns_Connection (c : Config) (as : List Assignment) :
    (applyAssigns c as).Connection = c.Connection := by
  rw [applyAssigns_eq_applyPatch]
  rfl

/-- `NewDefault` always returns a client whose dialer enforces the decoded
timeout. -/
theorem NewDefault_conn (dc : String) (cfg : Config) (h : NewDefault dc = .ok cfg) :
    cfg.Connection = some (HTTPClient.withDialTimeout cfg.ConnectionTimeout) := by
  unfold NewDefault Config.LoadDefaultConfig at h
  cases hD : parseDoc dc with
  | none => rw [hD] at h; simp at h
  | some ds =>
    rw [hD] at h
    simp only [Except.ok.injEq] at h
    subst h
    rfl

/-- The outcome of `LoadConfigFromContent` depends only on whether the
supplied bytes decode. -/
theorem LCFC_err (c : Config) (dc b : String) :
    (Config.LoadConfigFromContent c dc b).2 =
      match parseDoc b with
      | none => some ConfigError.decodeError
      | some _ => none := by
  rw [LCFC_normal]
  cases parseDoc b <;> rfl

/-- A successful `LoadConfigFromContent` attaches a dial-timeout client
built from the record's own timeout field. -/
theorem LCFC_conn (c : Config) (dc b : String)
    (h : (Config.LoadConfigFromContent c dc b).2 = none) :
    (Config.LoadConfigFromContent c dc b).1.Connection
      = some (HTTPClient.withDialTimeout
          (Config.LoadConfigFromContent c dc b).1.ConnectionTimeout) := by
  rw [LCFC_normal] at *
  cases hB : parseDoc b with
  | none => rw [hB] at h; simp at h
  | some bs => rfl

/-- A successful `LoadConfigFromFilepath` attaches a dial-timeout client. -/
theorem LCFFp_conn (c : Config) (dc home : String) (fs : Fs) (fp : String)
    (h : (Config.LoadConfigFromFilepath c dc home fs fp).2 = none) :
    (Config.LoadConfigFromFilepath c dc home fs fp).1.Connection
      = some (HTTPClient.withDialTimeout
          (Config.LoadConfigFromFilepath c dc home fs fp).1.ConnectionTimeout) := by
  unfold Config.LoadConfigFromFilepath at *
  cases hr : fs.read (expandPath home fp) with
  | none => rw [hr] at h; simp at h
  | some content =>
    rw [hr] at h
    exact LCFC_conn c dc content h

/-- A successful `LoadUserConfig` attaches a dial-timeout client. -/
theorem LUC_conn (c : Config) (dc home : String)
    (install : Fs → Fs × Option ConfigError) (fs : Fs)
    (h : ((Config.LoadUserConfig c dc home install fs).2).2 = none) :
    ((Config.LoadUserConfig c dc home install fs).2).1.Connection
      = some (HTTPClient.withDialTimeout
          ((Config.LoadUserConfig c dc home install fs).2).1.ConnectionTimeout) := by
  unfold Config.LoadUserConfig at *
  exact LCFFp_conn c dc home _ _ h

/-! ## C7: the dial timeout of `NewDefault` -/

/-- C7: after a successful `NewDefault`, the attached client's dialer
enforces a timeout of exactly the decoded `connection_timeout` field, in
seconds (so a default document setting it to 30 yields a 30-second dial
timeout). -/
theorem NewDefault_dial_timeout (dc : String) (cfg : Config)
    (h : NewDefault dc = .ok cfg) :
    cfg.Connection = some (HTTPClient.withDialTimeout cfg.ConnectionTimeout) :=
  NewDefault_conn dc cfg h

theorem NewDefault_dial_timeout_witness :
    NewDefault "connection_timeout: 30"
        = .ok { freshConfig with
                  ConnectionTimeout := 30,
                  Connection := some (HTTPClient.withDialTimeout 30) }
      ∧ ({ freshConfig with
             ConnectionTimeout := 30,
             Connection := some (HTTPClient.withDialTimeout 30) } : Config).Connection
          = some (HTTPClient.withDialTimeout 30) :=
  ⟨rfl, NewDefault_dial_timeout "connection_timeout: 30" _ rfl⟩

/-! ## C8: `New` overwrites exactly the credential fields -/

/-- C8: `New` loads the built-in defaults, overwrites exactly the two
credential fields, attaches a plain default-transport client, and fails
(with `decodeError`) exactly when the built-in default document fails to
parse. -/
theorem New_credentials (dc ak sk : String) :
    (∀ cfg, NewDefault dc = .ok cfg →
        New dc ak sk = .ok { cfg with
                               AccessKeyID := ak, SecretAccessKey := sk,
                               Connection := some HTTPClient.default })
      ∧ (New dc ak sk = .error ConfigError.decodeError ↔ parseDoc dc = none) := by
  constructor
  · intro cfg h
    unfold New
    rw [h]
  · unfold New NewDefault Config.LoadDefaultConfig
    cases hD : parseDoc dc <;> simp

theorem New_credentials_witness :
    NewDefault "zone: pek3"
        = .ok { freshConfig with
                  Zone := "pek3", Connection := some (HTTPClient.withDialTimeout 0) }
      ∧ New "zone: pek3" "AK" "SK"
          = .ok { freshConfig with
                    AccessKeyID := "AK", SecretAccessKey := "SK", Zone := "pek3",
                    Connection := some HTTPClient.default } :=
  ⟨rfl, (New_credentials "zone: pek3" "AK" "SK").1
    { freshConfig with
        Zone := "pek3", Connection := some (HTTPClient.withDialTimeout 0) } rfl⟩

theorem NewWithEndpoint_ok_fields_witness :
    parseURL "https://api.qingcloud.com:443/iaas"
        = .ok { Scheme := "https", Host := "api.qingcloud.com:443", Path := "/iaas" }
      ∧ (({ Scheme := "https", Host := "api.qingcloud.com:443", Path := "/iaas" }
            : URL).Host.data.contains ':') = true
      ∧ parseDoc "connection_timeout: 60" = some [Assignment.ConnectionTimeout 60]
      ∧ ∃ cfg, NewWithEndpoint "connection_timeout: 60" "ak" "sk"
            "https://api.qingcloud.com:443/iaas" = .ok cfg
          ∧ cfg.Host = URL.hostPart
              { Scheme := "https", Host := "api.qingcloud.com:443", Path := "/iaas" }
          ∧ atoi (URL.portPart
              { Scheme := "https", Host := "api.qingcloud.com:443", Path := "/iaas" })
              = some cfg.Port
          ∧ cfg.Protocol = "https"
          ∧ cfg.URI = "/iaas" :=
  ⟨rfl, rfl, rfl,
    NewWithEndpoint_ok_fields "connection_timeout: 60" "ak" "sk"
      "https://api.qingcloud.com:443/iaas"
      { Scheme := "https", Host := "api.qingcloud.com:443", Path := "/iaas" }
      rfl rfl [Assignment.ConnectionTimeout 60] rfl⟩

/-! ## C3: presence and shape of the client after each operation -/

/-- C3 as stated is false at two operations: a successful
`LoadDefaultConfig` leaves the client field untouched (here: absent), and
`New` changes `connection_timeout` (0 → 30) yet attaches the plain default
client instead of rebuilding one with a dial-timeout wrapper. -/
theorem client_invariant_counterexample :
    (freshConfig.LoadDefaultConfig "connection_timeout: 30").2 = none
      ∧ (freshConfig.LoadDefaultConfig "connection_timeout: 30").1.Connection = none
      ∧ New "connection_timeout: 30" "ak" "sk"
          = .ok { freshConfig with
                    AccessKeyID := "ak", SecretAccessKey := "sk",
                    ConnectionTimeout := 30,
                    Connection := some HTTPClient.default } :=
  ⟨rfl, rfl, rfl⟩

/-- C3 amended: after every successful `New`, `NewWithEndpoint`,
`NewDefault`, `LoadUserConfig`, `LoadConfigFromFilepath` and
`LoadConfigFromContent` the client is present; `NewDefault`,
`LoadConfigFromContent` and the loaders delegating to it rebuild it with a
dial-timeout wrapper using the record's (new) `connection_timeout`, while
`New` and `NewWithEndpoint` attach a plain default-transport client
without a timeout wrapper; `LoadDefaultConfig` alone never touches the
client field. -/
theorem client_presence_amended :
    (∀ dc ak sk cfg, New dc ak sk = .ok cfg →
        cfg.Connection = some HTTPClient.default)
      ∧ (∀ dc ak sk ep cfg, NewWithEndpoint dc ak sk ep = .ok cfg →
          cfg.Connection = some HTTPClient.default)
      ∧ (∀ dc cfg, NewDefault dc = .ok cfg →
          cfg.Connection = some (HTTPClient.withDialTimeout cfg.ConnectionTimeout))
      ∧ (∀ dc b c, (Config.LoadConfigFromContent c dc b).2 = none →
          (Config.LoadConfigFromContent c dc b).1.Connection
            = some (HTTPClient.withDialTimeout
                (Config.LoadConfigFromContent c dc b).1.ConnectionTimeout))
      ∧ (∀ dc home fs fp c, (Config.LoadConfigFromFilepath c dc home fs fp).2 = none →
          (Config.LoadConfigFromFilepath c dc home fs fp).1.Connection
            = some (HTTPClient.withDialTimeout
                (Config.LoadConfigFromFilepath c dc home fs fp).1.ConnectionTimeout))
      ∧ (∀ dc home install fs c,
          ((Config.LoadUserConfig c dc home install fs).2).2 = none →
          ((Config.LoadUserConfig c dc home install fs).2).1.Connection
            = some (HTTPClient.withDialTimeout
                ((Config.LoadUserConfig c dc home install fs).2).1.ConnectionTimeout))
      ∧ (∀ dc c, ((Config.LoadDefaultConfig c dc).1).Connection = c.Connection) := by
  refine ⟨?_, ?_, ?_, ?_, ?_, ?_, ?_⟩
  · intro dc ak sk cfg h
    unfold New at h
    cases hN : NewDefault dc with
    | error e => rw [hN] at h; simp at h
    | ok c0 =>
      rw [hN] at h
      simp only [Except.ok.injEq] at h
      subst h
      rfl
  · intro dc ak sk ep cfg h
    unfold NewWithEndpoint at h
    cases hu : parseURL ep with
    | error e => rw [hu] at h; simp at h
    | ok qcUrl =>
      rw [hu] at h
      by_cases hc : qcUrl.Host.data.contains ':' = true
      · simp only [hc, Bool.not_true, Bool.false_eq_true, if_false] at h
        cases hN : NewDefault dc with
        | error e => rw [hN] at h; simp at h
        | ok c0 =>
          rw [hN] at h
          cases hA : atoi ⟨(splitOnChar ':' qcUrl.Host.data).getD 1 []⟩ with
          | none => rw [hA] at h; simp at h
          | some port =>
            rw [hA] at h
            simp only [Except.ok.injEq] at h
            subst h
            rfl
      · simp only [Bool.not_eq_true] at hc
        simp only [hc, Bool.not_false, eq_self_iff_true, if_true] at h
        simp at h
  · intro dc cfg h
    exact NewDefault_conn dc cfg h
  · intro dc b c h
    exact LCFC_conn c dc b h
  · intro dc home fs fp c h
    exact LCFFp_conn c dc home fs fp h
  · intro dc home install fs c h
    exact LUC_conn c dc home install fs h
  · intro dc c
    unfold Config.LoadDefaultConfig
    cases hD : parseDoc dc with
    | none => rfl
    | some ds => exact applyAssigns_Connection c ds

/-- Default document used by the C3 witness. -/
def dcW : String := "connection_timeout: 5"

/-- Filesystem used by the C3 witness: a user config file is present. -/
def fsW : Fs := [("/h/.qingcloud/config.yaml", "port: 3")]

theorem client_presence_amended_witness :
    ({ freshConfig with
         AccessKeyID := "a", SecretAccessKey := "b", ConnectionTimeout := 5,
         Connection := some HTTPClient.default } : Config).Connection
        = some HTTPClient.default
      ∧ ({ freshConfig with
             AccessKeyID := "a", SecretAccessKey := "b", Host := "h", Port := 1,
             Protocol := "http", URI := "/x", ConnectionTimeout := 5,
             Connection := some HTTPClient.default } : Config).Connection
          = some HTTPClient.default
      ∧ ({ freshConfig with
             ConnectionTimeout := 5,
             Connection := some (HTTPClient.withDialTimeout 5) } : Config).Connection
          = some (HTTPClient.withDialTimeout 5)
      ∧ (Config.LoadConfigFromContent freshConfig dcW "port: 3").1.Connection
          = some (HTTPClient.withDialTimeout
              (Config.LoadConfigFromContent freshConfig dcW "port: 3").1.ConnectionTimeout)
      ∧ (Config.LoadConfigFromFilepath freshConfig dcW "/h" fsW
            "/h/.qingcloud/config.yaml").1.Connection
          = some (HTTPClient.withDialTimeout
              (Config.LoadConfigFromFilepath freshConfig dcW "/h" fsW
                 "/h/.qingcloud/config.yaml").1.ConnectionTimeout)
      ∧ ((Config.LoadUserConfig freshConfig dcW "/h" (fun s => (s, none)) fsW).2).1.Connection
          = some (HTTPClient.withDialTimeout
              ((Config.LoadUserConfig freshConfig dcW "/h"
                  (fun s => (s, none)) fsW).2).1.ConnectionTimeout) :=
  ⟨client_presence_amended.1 dcW "a" "b" _ rfl,
   (client_presence_amended.2.1) dcW "a" "b" "http://h:1/x" _ rfl,
   (client_presence_amended.2.2.1) dcW _ rfl,
   (client_presence_amended.2.2.2.1) dcW "port: 3" freshConfig rfl,
   (client_presence_amended.2.2.2.2.1) dcW "/h" fsW "/h/.qingcloud/config.yaml"
     freshConfig rfl,
   (client_presence_amended.2.2.2.2.2.1) dcW "/h" (fun s => (s, none)) fsW
     freshConfig rfl⟩

/-! ## C10: what `LoadUserConfig` reports -/

/-- The outcome of `LoadConfigFromFilepath` as a function of the read and
the decode of what was read. -/
theorem LCFFp_err (c : Config) (dc home : String) (fs : Fs) (fp : String) :
    (Config.LoadConfigFromFilepath c dc home fs fp).2 =
      match fs.read (expandPath home fp) with
      | none => some ConfigError.fileIOError
      | some content =>
        match parseDoc content with
        | none => some ConfigError.decodeError
        | some _ => none := by
  unfold Config.LoadConfigFromFilepath
  cases hr : fs.read (expandPath home fp) with
  | none => rfl
  | some content => exact LCFC_err c dc content

/-- `LoadUserConfig` unfolded: an optional install, then the file load. -/
theorem LUC_eq (c : Config) (dc home : String)
    (install : Fs → Fs × Option ConfigError) (fs : Fs) :
    Config.LoadUserConfig c dc home install fs
      = (if fs.stat (getUserConfigFilePath home) then fs else (install fs).1,
         Config.LoadConfigFromFilepath c dc home
           (if fs.stat (getUserConfigFilePath home) then fs else (install fs).1)
           (getUserConfigFilePath home)) := rfl

/-- Filesystem of the C10 counterexample: the user config file exists but
its content is malformed. -/
def badUserFs : Fs := [("/home/u/.qingcloud/config.yaml", "no colon malformed")]

/-- C10 as stated is false: here the user config file exists (no install
happens and the read succeeds), yet `LoadUserConfig` fails — and with
`decodeError`, not a file-read error, because the file's content is
malformed.  So the operation does not fail only on a failing read. -/
theorem LoadUserConfig_counterexample :
    ((Config.LoadUserConfig freshConfig "port: 1" "/home/u"
          (fun s => (s, none)) badUserFs).2).2
        = some ConfigError.decodeError
      ∧ (badUserFs.read (expandPath "/home/u" (getUserConfigFilePath "/home/u"))).isSome
          = true :=
  ⟨rfl, rfl⟩

/-- C10 amended: `LoadUserConfig` discards the reported outcome of the
default-config installation entirely — the result is the same whatever
error the install reports — and the operation's own failure is exactly
that of the subsequent file load: `fileIOError` precisely when the
post-install read of the user path fails, `decodeError` precisely when the
read succeeds but the content is malformed. -/
theorem LoadUserConfig_amended :
    (∀ (dc home : String) (c : Config) (f : Fs → Fs)
        (e1 e2 : Option ConfigError) (fs : Fs),
        Config.LoadUserConfig c dc home (fun s => (f s, e1)) fs
          = Config.LoadUserConfig c dc home (fun s => (f s, e2)) fs)
      ∧ (∀ (dc home : String) (c : Config)
          (install : Fs → Fs × Option ConfigError) (fs : Fs),
          ((Config.LoadUserConfig c dc home install fs).2).2
              = some ConfigError.fileIOError
            ↔ ((Config.LoadUserConfig c dc home install fs).1).read
                (expandPath home (getUserConfigFilePath home)) = none)
      ∧ (∀ (dc home : String) (c : Config)
          (install : Fs → Fs × Option ConfigError) (fs : Fs),
          ((Config.LoadUserConfig c dc home install fs).2).2
              = some ConfigError.decodeError
            ↔ ∃ content, ((Config.LoadUserConfig c dc home install fs).1).read
                  (expandPath home (getUserConfigFilePath home)) = some content
                ∧ parseDoc content = none) := by
  refine ⟨?_, ?_, ?_⟩
  · intro dc home c f e1 e2 fs
    rfl
  · intro dc home c install fs
    rw [LUC_eq]
    rw [show ((if fs.stat (getUserConfigFilePath home) then fs else (install fs).1,
        Config.LoadConfigFromFilepath c dc home
          (if fs.stat (getUserConfigFilePath home) then fs else (install fs).1)
          (getUserConfigFilePath home))).2.2
      = (Config.LoadConfigFromFilepath c dc home
          (if fs.stat (getUserConfigFilePath home) then fs else (install fs).1)
          (getUserConfigFilePath home)).2 from rfl]
    rw [LCFFp_err]
    cases hr : (if fs.stat (getUserConfigFilePath home) then fs
        else (install fs).1).read (expandPath home (getUserConfigFilePath home)) with
    | none => simp
    | some content => cases hB : parseDoc content <;> simp [hB]
  · intro dc home c install fs
    rw [LUC_eq]
    rw [show ((if fs.stat (getUserConfigFilePath home) then fs else (install fs).1,
        Config.LoadConfigFromFilepath c dc home
          (if fs.stat (getUserConfigFilePath home) then fs else (install fs).1)
          (getUserConfigFilePath home))).2.2
      = (Config.LoadConfigFromFilepath c dc home
          (if fs.stat (getUserConfigFilePath home) then fs else (install fs).1)
          (getUserConfigFilePath home)).2 from rfl]
    rw [LCFFp_err]
    cases hr : (if fs.stat (getUserConfigFilePath home) then fs
        else (install fs).1).read (expandPath home (getUserConfigFilePath home)) with
    | none => simp
    | some content => cases hB : parseDoc content <;> simp [hB]

theorem LoadConfigFromContent_idempotent_witness :
    Config.LoadConfigFromContent
        ((Config.LoadConfigFromContent freshConfig "port: 1" "host: x").1)
        "port: 1" "host: x"
      = Config.LoadConfigFromContent freshConfig "port: 1" "host: x" :=
  LoadConfigFromContent_idempotent "port: 1" "host: x" freshConfig

theorem LoadConfigFromContent_layered_example_witness :
    freshConfig.LoadConfigFromContent dcExample bytesExample =
      ({ freshConfig with
           Host := "example.com", Port := 4000, Protocol := "https",
           ConnectionTimeout := 15,
           Connection := some (HTTPClient.withDialTimeout 15) }, none) :=
  LoadConfigFromContent_layered_example freshConfig

theorem LoadUserConfig_amended_witness :
    Config.LoadUserConfig freshConfig "port: 1" "/home/u"
        (fun s => (s, some ConfigError.fileIOError)) badUserFs
      = Config.LoadUserConfig freshConfig "port: 1" "/home/u"
          (fun s => (s, none)) badUserFs
      ∧ (((Config.LoadUserConfig freshConfig "port: 1" "/home/u"
              (fun s => (s, none)) badUserFs).2).2 = some ConfigError.decodeError
          ↔ ∃ content,
              ((Config.LoadUserConfig freshConfig "port: 1" "/home/u"
                  (fun s => (s, none)) badUserFs).1).read
                  (expandPath "/home/u" (getUserConfigFilePath "/home/u"))
                  = some content
              ∧ parseDoc content = none) :=
  ⟨LoadUserConfig_amended.1 "port: 1" "/home/u" freshConfig (fun s => s)
      (some ConfigError.fileIOError) none badUserFs,
   LoadUserConfig_amended.2.2 "port: 1" "/home/u" freshConfig
      (fun s => (s, none)) badUserFs⟩
